import Mathlib

/-!
Package urlshortener: path-to-URL redirect handlers

A shallow embedding of `handler.go` (`MapHandler`, `YAMLHandler`, `pathMap`)
and theorems about the handlers it builds.

Modelling conventions.

* A Go `map[string]string` is a function from keys to optional values
  (`GoMap`).  `make` is the map without keys, `m[k] = v` is `GoMap.assign`
  and the read `m[k]` is `GoMap.index`, which yields the zero value `""`
  for a key that is not in the map.
* `http.ResponseWriter`, `*http.Request` and `http.Handler` values come
  from the caller.  They are represented by their identity; a request also
  carries the string its `URL.EscapedPath()` returns.
* Neither `http.Redirect` nor `ServeHTTP` returns a value, so what one
  invocation of a handler does is the sequence of operations it performs,
  in program order (`Outcome.ops`), together with the state of the captured
  map when it returns (`Outcome.pathsToUrls`).
* `yaml.Unmarshal` belongs to `gopkg.in/yaml.v2`; it is a parameter of
  `YAMLHandler`.  It receives the document and the initial value of the
  destination slice and yields the slice it leaves behind and the error it
  returns (`none` for `nil`).
-/

namespace urlshortener

/-! ## Data model -/

/-- Go `map[string]string`: the value stored under each key, if any. -/
abbrev GoMap := String → Option String

/-- The map allocated by `make(map[string]string)`: it has no keys. -/
def GoMap.make : GoMap := fun _ => none

/-- The assignment `m[k] = v`: insert the key or overwrite its value. -/
def GoMap.assign (m : GoMap) (k v : String) : GoMap :=
  fun k' => if k' = k then some v else m k'

/-- The read `m[k]`: the stored value, or the zero value `""` when `k` is
not a key of `m`. -/
def GoMap.index (m : GoMap) (k : String) : String :=
  match m k with
  | some v => v
  | none => ""

/-- Identity of an `http.ResponseWriter` handed to a handler. -/
structure ResponseWriter where
  id : Nat
  deriving DecidableEq

/-- The part of `net/url.URL` the handlers read: the result of
`EscapedPath()`. -/
structure URL where
  escapedPath : String
  deriving DecidableEq

/-- The method `(*url.URL).EscapedPath`. -/
def URL.EscapedPath (u : URL) : String := u.escapedPath

/-- An `*http.Request`: its identity and its `URL` field. -/
structure Request where
  id : Nat
  URL : URL
  deriving DecidableEq

/-- Identity of a caller-supplied `http.Handler` (never `nil`). -/
structure Handler where
  id : Nat
  deriving DecidableEq

/-- Byte sequence `[]byte`. -/
abbrev Bytes := List Nat

/-- Operations the code performs, recorded in program order. -/
inductive Op where
  /-- The call `http.Redirect(w, r, url, code)`. -/
  | Redirect (w : ResponseWriter) (r : Request) (url : String) (code : Nat)
  /-- The call `h.ServeHTTP(w, r)` on a caller-supplied handler `h`. -/
  | ServeHTTP (h : Handler) (w : ResponseWriter) (r : Request)
  /-- The call `yaml.Unmarshal(yml, &pathMaps)`. -/
  | Unmarshal (yml : Bytes)
  /-- The allocation `make(map[string]string)`. -/
  | MakeMap
  /-- The assignment `mapMap[k] = v`. -/
  | MapAssign (k v : String)
  /-- The call `MapHandler(mapMap, fallback)`, which creates a closure. -/
  | MapHandler (fallback : Handler)
  deriving DecidableEq

/-- The constant `http.StatusSeeOther` of `net/http`. -/
def http.StatusSeeOther : Nat := 303

/-- The operation performed by the statement
`http.Redirect(w, r, url, code)`. -/
def http.Redirect (w : ResponseWriter) (r : Request) (url : String) (code : Nat) : Op :=
  Op.Redirect w r url code

/-- The operation performed by the statement `h.ServeHTTP(w, r)`. -/
def Handler.ServeHTTP (h : Handler) (w : ResponseWriter) (r : Request) : Op :=
  Op.ServeHTTP h w r

/-- What one invocation of a handler closure leaves behind. -/
structure Outcome where
  /-- The captured map when the invocation returns. -/
  pathsToUrls : GoMap
  /-- The operations performed, in order. -/
  ops : List Op

/-- Go `http.HandlerFunc`: `func(w http.ResponseWriter, r *http.Request)`. -/
abbrev HandlerFunc := ResponseWriter → Request → Outcome

/-- The struct `pathMap` with its fields `Path` and `URL`. -/
structure pathMap where
  Path : String
  URL : String
  deriving DecidableEq

/-- A Go `error` value other than `nil`. -/
structure Error where
  text : String
  deriving DecidableEq

/-! ## The two functions of `handler.go` -/

/-- The function `MapHandler` (handler.go, lines 15-23). -/
def MapHandler (pathsToUrls : GoMap) (fallback : Handler) : HandlerFunc :=
  fun w r =>
    let newURL := pathsToUrls.index r.URL.EscapedPath
    let redirect : List Op :=
      if newURL ≠ "" then [http.Redirect w r newURL http.StatusSeeOther] else []
    { pathsToUrls := pathsToUrls
      ops := redirect ++ [fallback.ServeHTTP w r] }

/-- Values returned by `YAMLHandler` and the operations it performed. -/
structure YAMLResult where
  /-- First result: the handler, `none` for `nil`. -/
  handler : Option HandlerFunc
  /-- Second result: the error, `none` for `nil`. -/
  err : Option Error
  /-- The operations performed, in order. -/
  ops : List Op

/-- The loop of lines 49-52: starting from `make(map[string]string)`,
perform `mapMap[pm.Path] = pm.URL` for each record in order. -/
def YAMLHandler.mapMap (pathMaps : List pathMap) : GoMap :=
  pathMaps.foldl (fun m pm => m.assign pm.Path pm.URL) GoMap.make

/-- The function `YAMLHandler` (handler.go, lines 41-55).  `Unmarshal` is
`yaml.Unmarshal` at the type `*[]pathMap`. -/
def YAMLHandler (Unmarshal : Bytes → List pathMap → List pathMap × Option Error)
    (yml : Bytes) (fallback : Handler) : YAMLResult :=
  let (pathMaps, err) := Unmarshal yml []
  match err with
  | some e => { handler := none, err := some e, ops := [Op.Unmarshal yml] }
  | none =>
    let mapMap := YAMLHandler.mapMap pathMaps
    { handler := some (MapHandler mapMap fallback)
      err := none
      ops := [Op.Unmarshal yml, Op.MakeMap]
        ++ pathMaps.map (fun pm => Op.MapAssign pm.Path pm.URL)
        ++ [Op.MapHandler fallback] }

/-! ## Auxiliary definitions for stating the properties -/

/-- The request for escaped path `p` with identity `0`. -/
def requestFor (p : String) : Request := { id := 0, URL := { escapedPath := p } }

/-- Whether an operation is a call of `http.Redirect`. -/
def Op.isRedirect : Op → Bool
  | Op.Redirect _ _ _ _ => true
  | _ => false

/-- Whether an operation is a call of `ServeHTTP` on a caller-supplied
handler. -/
def Op.isServeHTTP : Op → Bool
  | Op.ServeHTTP _ _ _ => true
  | _ => false

/-- The map `m` without the entries whose value is the empty string. -/
def GoMap.dropEmpty (m : GoMap) : GoMap :=
  fun k => if m k = some "" then none else m k

/-- The bytes of a string, used to write documents in examples. -/
def bytesOf (s : String) : Bytes := s.toList.map Char.toNat

/-- A stand-in for `yaml.Unmarshal` that knows five documents; every other
input is rejected and leaves the destination as it was.  It is used only to
instantiate the theorems at concrete inputs. -/
def sampleUnmarshal (yml : Bytes) (dst : List pathMap) : List pathMap × Option Error :=
  if yml = bytesOf "- path: /go\n  url: https://go.dev\n" then
    ([{ Path := "/go", URL := "https://go.dev" }], none)
  else if yml = bytesOf "- path: /x\n  url: u1\n- path: /x\n  url: u2\n" then
    ([{ Path := "/x", URL := "u1" }, { Path := "/x", URL := "u2" }], none)
  else if yml = bytesOf "- path: /x\n  url: u1\n- path: /x\n" then
    ([{ Path := "/x", URL := "u1" }, { Path := "/x", URL := "" }], none)
  else if yml = bytesOf "[]" then
    ([], none)
  else if yml = bytesOf "- url: u\n" then
    ([{ Path := "", URL := "u" }], none)
  else
    (dst, some { text := "yaml: unmarshal errors" })

end urlshortener

namespace urlshortener

/-! ## Lemmas about the map built by the loop -/

theorem foldl_assign_of_not_mem (post : List pathMap) (m : GoMap) (k : String)
    (h : ∀ q ∈ post, q.Path ≠ k) :
    post.foldl (fun m pm => m.assign pm.Path pm.URL) m k = m k := by
  induction post generalizing m with
  | nil => rfl
  | cons q post ih =>
    rw [List.foldl_cons, ih _ (fun q' hq' => h q' (List.mem_cons_of_mem _ hq'))]
    have hq : k ≠ q.Path := fun e => h q (List.mem_cons_self _ _) e.symm
    simp [GoMap.assign, hq]

theorem mapMap_last (pre post : List pathMap) (pm : pathMap)
    (h : ∀ q ∈ post, q.Path ≠ pm.Path) :
    YAMLHandler.mapMap (pre ++ pm :: post) pm.Path = some pm.URL := by
  unfold YAMLHandler.mapMap
  rw [List.foldl_append, List.foldl_cons, foldl_assign_of_not_mem _ _ _ h]
  simp [GoMap.assign]

theorem mapMap_of_not_mem (recs : List pathMap) (p : String)
    (h : ∀ q ∈ recs, q.Path ≠ p) : YAMLHandler.mapMap recs p = none := by
  unfold YAMLHandler.mapMap
  rw [foldl_assign_of_not_mem _ _ _ h]
  rfl

theorem exists_last_record (recs : List pathMap) (p : String)
    (h : ∃ q ∈ recs, q.Path = p) :
    ∃ pre pm post, recs = pre ++ pm :: post ∧ pm.Path = p ∧ ∀ q ∈ post, q.Path ≠ p := by
  induction recs with
  | nil => obtain ⟨q, hq, _⟩ := h; cases hq
  | cons a recs ih =>
    by_cases hlater : ∃ q ∈ recs, q.Path = p
    · obtain ⟨pre, pm, post, hsplit, hpm, hpost⟩ := ih hlater
      exact ⟨a :: pre, pm, post, by rw [hsplit]; rfl, hpm, hpost⟩
    · obtain ⟨q, hq, hqp⟩ := h
      rcases List.mem_cons.mp hq with rfl | hq
      · exact ⟨[], q, recs, rfl, hqp, fun q' hq' e => hlater ⟨q', hq', e⟩⟩
      · exact absurd ⟨q, hq, hqp⟩ hlater

theorem MapHandler_ops_of_nonempty (M : GoMap) (F : Handler) (w : ResponseWriter)
    (r : Request) (U : String) (hkey : M r.URL.EscapedPath = some U) (hne : U ≠ "") :
    (MapHandler M F w r).ops = [Op.Redirect w r U 303, Op.ServeHTTP F w r] := by
  simp [MapHandler, GoMap.index, hkey, hne, http.Redirect, Handler.ServeHTTP,
    http.StatusSeeOther]

theorem MapHandler_ops_of_empty (M : GoMap) (F : Handler) (w : ResponseWriter)
    (r : Request) (h : M r.URL.EscapedPath = none ∨ M r.URL.EscapedPath = some "") :
    (MapHandler M F w r).ops = [Op.ServeHTTP F w r] := by
  rcases h with h | h <;> simp [MapHandler, GoMap.index, h, Handler.ServeHTTP]

theorem YAMLHandler_of_ok (Unmarshal : Bytes → List pathMap → List pathMap × Option Error)
    (yml : Bytes) (F : Handler) (recs : List pathMap) (hok : Unmarshal yml [] = (recs, none)) :
    YAMLHandler Unmarshal yml F =
      { handler := some (MapHandler (YAMLHandler.mapMap recs) F)
        err := none
        ops := [Op.Unmarshal yml, Op.MakeMap]
          ++ recs.map (fun pm => Op.MapAssign pm.Path pm.URL)
          ++ [Op.MapHandler F] } := by
  simp [YAMLHandler, hok]

theorem YAMLHandler_of_error (Unmarshal : Bytes → List pathMap → List pathMap × Option Error)
    (yml : Bytes) (F : Handler) (recs : List pathMap) (e : Error)
    (hfail : Unmarshal yml [] = (recs, some e)) :
    YAMLHandler Unmarshal yml F =
      { handler := none, err := some e, ops := [Op.Unmarshal yml] } := by
  simp [YAMLHandler, hfail]

end urlshortener

namespace urlshortener

/-! ## Properties of `MapHandler` -/

/-- C1: when the escaped path of the request is a key of `M` with a
non-empty value `U`, one invocation of `MapHandler M F` performs exactly two
operations, in this order: `http.Redirect(w, r, U, 303)` and then
`F.ServeHTTP(w, r)`. -/
theorem C1_redirect_then_fallback (M : GoMap) (F : Handler) (w : ResponseWriter)
    (r : Request) (U : String) (hkey : M r.URL.EscapedPath = some U) (hne : U ≠ "") :
    http.StatusSeeOther = 303 ∧
    (MapHandler M F w r).ops = [Op.Redirect w r U 303, Op.ServeHTTP F w r] :=
  ⟨rfl, MapHandler_ops_of_nonempty M F w r U hkey hne⟩

/-- Instance of C1: the map with the single entry `/go -> https://go.dev`
and a request for `/go`. -/
theorem C1_redirect_then_fallback_witness :
    GoMap.assign GoMap.make "/go" "https://go.dev" (requestFor "/go").URL.EscapedPath
        = some "https://go.dev" ∧
      "https://go.dev" ≠ "" ∧
      http.StatusSeeOther = 303 ∧
      (MapHandler (GoMap.assign GoMap.make "/go" "https://go.dev") ⟨7⟩ ⟨1⟩
          (requestFor "/go")).ops
        = [Op.Redirect ⟨1⟩ (requestFor "/go") "https://go.dev" 303,
           Op.ServeHTTP ⟨7⟩ ⟨1⟩ (requestFor "/go")] :=
  ⟨by decide, by decide,
    C1_redirect_then_fallback (GoMap.assign GoMap.make "/go" "https://go.dev") ⟨7⟩ ⟨1⟩
      (requestFor "/go") "https://go.dev" (by decide) (by decide)⟩

/-- C2: when the escaped path of the request is not a key of `M`, or is a
key whose value is the empty string, one invocation of `MapHandler M F`
performs the single operation `F.ServeHTTP(w, r)`: no redirect is issued and
the fallback is invoked. -/
theorem C2_miss_only_fallback (M : GoMap) (F : Handler) (w : ResponseWriter)
    (r : Request)
    (hmiss : M r.URL.EscapedPath = none ∨ M r.URL.EscapedPath = some "") :
    (MapHandler M F w r).ops = [Op.ServeHTTP F w r] ∧
    (∀ url code, Op.Redirect w r url code ∉ (MapHandler M F w r).ops) := by
  have h := MapHandler_ops_of_empty M F w r hmiss
  refine ⟨h, ?_⟩
  intro url code hmem
  rw [h] at hmem
  simp at hmem

/-- Instance of C2: a key mapped to the empty string. -/
theorem C2_miss_only_fallback_witness :
    (GoMap.assign GoMap.make "/e" "" (requestFor "/e").URL.EscapedPath = none ∨
      GoMap.assign GoMap.make "/e" "" (requestFor "/e").URL.EscapedPath = some "") ∧
    (MapHandler (GoMap.assign GoMap.make "/e" "") ⟨7⟩ ⟨1⟩ (requestFor "/e")).ops
        = [Op.ServeHTTP ⟨7⟩ ⟨1⟩ (requestFor "/e")] ∧
    (∀ url code, Op.Redirect ⟨1⟩ (requestFor "/e") url code ∉
        (MapHandler (GoMap.assign GoMap.make "/e" "") ⟨7⟩ ⟨1⟩ (requestFor "/e")).ops) :=
  ⟨Or.inr (by decide),
    C2_miss_only_fallback (GoMap.assign GoMap.make "/e" "") ⟨7⟩ ⟨1⟩ (requestFor "/e")
      (Or.inr (by decide))⟩

/-- C3: evaluation of the code at a request whose path is a key of the map
with a non-empty value.  The handler issues the redirect and also calls the
fallback, whereas the documentation of `MapHandler` says the fallback is
called when the path is not provided in the map, instead of the redirect. -/
theorem C3_fallback_called_after_redirect :
    GoMap.assign GoMap.make "/go" "https://go.dev" "/go" = some "https://go.dev" ∧
    (MapHandler (GoMap.assign GoMap.make "/go" "https://go.dev") ⟨7⟩ ⟨1⟩
        (requestFor "/go")).ops
      = [Op.Redirect ⟨1⟩ (requestFor "/go") "https://go.dev" 303,
         Op.ServeHTTP ⟨7⟩ ⟨1⟩ (requestFor "/go")] ∧
    Op.ServeHTTP ⟨7⟩ ⟨1⟩ (requestFor "/go") ∈
      (MapHandler (GoMap.assign GoMap.make "/go" "https://go.dev") ⟨7⟩ ⟨1⟩
        (requestFor "/go")).ops := by
  decide

/-- C8: one invocation of `MapHandler M F` calls `ServeHTTP` exactly once,
on `F`, with the writer and the request the handler received; it issues at
most one redirect; every operation before the call of `F` is a redirect with
status 303 on the same writer and request, and nothing follows the call of
`F`; the captured map is `M` when the invocation returns. -/
theorem C8_one_fallback_call_frame (M : GoMap) (F : Handler) (w : ResponseWriter)
    (r : Request) :
    (MapHandler M F w r).ops.filter Op.isServeHTTP = [Op.ServeHTTP F w r] ∧
    ((MapHandler M F w r).ops.filter Op.isRedirect).length ≤ 1 ∧
    (∃ before, (MapHandler M F w r).ops = before ++ [Op.ServeHTTP F w r] ∧
      before = (MapHandler M F w r).ops.filter Op.isRedirect ∧
      ∀ op ∈ before, ∃ url, op = Op.Redirect w r url 303) ∧
    (MapHandler M F w r).pathsToUrls = M := by
  by_cases h : GoMap.index M r.URL.EscapedPath = ""
  · have hops : (MapHandler M F w r).ops = [Op.ServeHTTP F w r] := by
      simp [MapHandler, h, Handler.ServeHTTP]
    rw [hops]
    refine ⟨by simp [Op.isServeHTTP], by simp [Op.isRedirect], ⟨[], ?_⟩, rfl⟩
    simp [Op.isRedirect]
  · have hops : (MapHandler M F w r).ops
        = [Op.Redirect w r (GoMap.index M r.URL.EscapedPath) 303, Op.ServeHTTP F w r] := by
      simp [MapHandler, h, Handler.ServeHTTP, http.Redirect, http.StatusSeeOther]
    rw [hops]
    refine ⟨by simp [Op.isServeHTTP], by simp [Op.isRedirect],
      ⟨[Op.Redirect w r (GoMap.index M r.URL.EscapedPath) 303], ?_⟩, rfl⟩
    simp [Op.isRedirect]

/-- C9: `MapHandler M F` and `MapHandler M.dropEmpty F` perform the same
operations on every request, where `M.dropEmpty` is `M` without the entries
whose value is the empty string; a key of `M` is a key of `M.dropEmpty`
exactly when its value is not empty. -/
theorem C9_empty_value_as_missing (M : GoMap) (F : Handler) (w : ResponseWriter)
    (r : Request) :
    (MapHandler M F w r).ops = (MapHandler M.dropEmpty F w r).ops ∧
    (∀ k, M.dropEmpty k = none ↔ (M k = none ∨ M k = some "")) ∧
    (∀ k v, M.dropEmpty k = some v ↔ (M k = some v ∧ v ≠ "")) := by
  refine ⟨?_, ?_, ?_⟩
  · have hidx : GoMap.index M.dropEmpty r.URL.EscapedPath
        = GoMap.index M r.URL.EscapedPath := by
      unfold GoMap.index GoMap.dropEmpty
      by_cases h : M r.URL.EscapedPath = some ""
      · simp [h]
      · simp [h]
    simp [MapHandler, hidx]
  · intro k
    unfold GoMap.dropEmpty
    by_cases h : M k = some ""
    · simp [h]
    · simp [h]
  · intro k v
    unfold GoMap.dropEmpty
    by_cases h : M k = some ""
    · simp [h]
      intro hv
      exact hv.symm
    · simp only [h, if_false]
      constructor
      · intro hv
        exact ⟨hv, fun e => h (by rw [hv, e])⟩
      · intro hv
        exact hv.1

end urlshortener

namespace urlshortener

/-! ## Properties of `YAMLHandler` -/

/-- C4: when the document deserialises without error to records with
pairwise distinct paths, and `M` sends the path of every record to its URL
and has no other keys, `YAMLHandler` returns a nil error and a handler whose
invocation has, on every writer and request, the same outcome as that of
`MapHandler M F`. -/
theorem C4_YAMLHandler_as_MapHandler
    (Unmarshal : Bytes → List pathMap → List pathMap × Option Error)
    (yml : Bytes) (F : Handler) (recs : List pathMap) (M : GoMap)
    (hok : Unmarshal yml [] = (recs, none))
    (_hdistinct : (recs.map pathMap.Path).Nodup)
    (hsends : ∀ pm ∈ recs, M pm.Path = some pm.URL)
    (hkeys : ∀ p, (∀ pm ∈ recs, pm.Path ≠ p) → M p = none) :
    (YAMLHandler Unmarshal yml F).err = none ∧
    ∃ h, (YAMLHandler Unmarshal yml F).handler = some h ∧
      ∀ w r, h w r = MapHandler M F w r := by
  have hmap : YAMLHandler.mapMap recs = M := by
    funext p
    by_cases hp : ∃ q ∈ recs, q.Path = p
    · obtain ⟨pre, pm, post, hsplit, hpm, hpost⟩ := exists_last_record recs p hp
      subst hpm
      have hmem : pm ∈ recs := by rw [hsplit]; simp
      rw [hsends pm hmem, hsplit]
      exact mapMap_last pre post pm hpost
    · have hnone : ∀ q ∈ recs, q.Path ≠ p := fun q hq e => hp ⟨q, hq, e⟩
      rw [hkeys p hnone]
      exact mapMap_of_not_mem recs p hnone
  rw [YAMLHandler_of_ok Unmarshal yml F recs hok]
  exact ⟨rfl, _, rfl, fun w r => by rw [hmap]⟩

/-- Instance of C4: the document with the single record
`(/go, https://go.dev)`.  The handler redirects `/go` to `https://go.dev`
and sends `/other` to the fallback without a redirect. -/
theorem C4_YAMLHandler_as_MapHandler_witness :
    sampleUnmarshal (bytesOf "- path: /go\n  url: https://go.dev\n") []
        = ([{ Path := "/go", URL := "https://go.dev" }], none) ∧
    (YAMLHandler sampleUnmarshal (bytesOf "- path: /go\n  url: https://go.dev\n") ⟨7⟩).err
        = none ∧
    ∃ h, (YAMLHandler sampleUnmarshal
          (bytesOf "- path: /go\n  url: https://go.dev\n") ⟨7⟩).handler = some h ∧
      (∀ w r, h w r
        = MapHandler (fun p => if p = "/go" then some "https://go.dev" else none) ⟨7⟩ w r) ∧
      (h ⟨1⟩ (requestFor "/go")).ops
        = [Op.Redirect ⟨1⟩ (requestFor "/go") "https://go.dev" 303,
           Op.ServeHTTP ⟨7⟩ ⟨1⟩ (requestFor "/go")] ∧
      (h ⟨1⟩ (requestFor "/other")).ops = [Op.ServeHTTP ⟨7⟩ ⟨1⟩ (requestFor "/other")] := by
  have hthm := C4_YAMLHandler_as_MapHandler sampleUnmarshal
    (bytesOf "- path: /go\n  url: https://go.dev\n") ⟨7⟩
    [{ Path := "/go", URL := "https://go.dev" }]
    (fun p => if p = "/go" then some "https://go.dev" else none)
    (by decide) (by decide) (by simp) (by
      intro p hp
      have hne : p ≠ "/go" := fun e => hp _ (List.mem_singleton.mpr rfl) e.symm
      simp [hne])
  obtain ⟨herr, h, hh, hsame⟩ := hthm
  refine ⟨by decide, herr, h, hh, hsame, ?_, ?_⟩
  · rw [hsame]; decide
  · rw [hsame]; decide

/-- C5: when the document deserialises without error to `recs`, the handler
returned by `YAMLHandler` is `MapHandler` over the map built by the loop,
and for every record `pm` of `recs` that no later record shares its path
with, that map sends `pm.Path` to `pm.URL`; when `pm.URL` is not empty, a
request for `pm.Path` is redirected to `pm.URL` with status 303 and to no
other URL. -/
theorem C5_last_write_wins
    (Unmarshal : Bytes → List pathMap → List pathMap × Option Error)
    (yml : Bytes) (F : Handler) (recs pre post : List pathMap) (pm : pathMap)
    (hok : Unmarshal yml [] = (recs, none))
    (hsplit : recs = pre ++ pm :: post)
    (hlast : ∀ q ∈ post, q.Path ≠ pm.Path) :
    ∃ mapMap, (YAMLHandler Unmarshal yml F).handler = some (MapHandler mapMap F) ∧
      mapMap = YAMLHandler.mapMap recs ∧
      mapMap pm.Path = some pm.URL ∧
      (pm.URL ≠ "" → ∀ w r, r.URL.EscapedPath = pm.Path →
        (MapHandler mapMap F w r).ops = [Op.Redirect w r pm.URL 303, Op.ServeHTTP F w r] ∧
        ∀ u code, Op.Redirect w r u code ∈ (MapHandler mapMap F w r).ops → u = pm.URL) := by
  have hval : YAMLHandler.mapMap recs pm.Path = some pm.URL := by
    rw [hsplit]; exact mapMap_last pre post pm hlast
  refine ⟨YAMLHandler.mapMap recs, ?_, rfl, hval, ?_⟩
  · rw [YAMLHandler_of_ok Unmarshal yml F recs hok]
  · intro hne w r hr
    have hops := MapHandler_ops_of_nonempty (YAMLHandler.mapMap recs) F w r pm.URL
      (by rw [hr]; exact hval) hne
    refine ⟨hops, ?_⟩
    intro u code hmem
    rw [hops] at hmem
    simp at hmem
    exact hmem.1

/-- Instance of C5: two records sharing the path `/x`, with URLs `u1` then
`u2`.  The request for `/x` is redirected to `u2` and not to `u1`. -/
theorem C5_last_write_wins_witness :
    sampleUnmarshal (bytesOf "- path: /x\n  url: u1\n- path: /x\n  url: u2\n") []
        = ([{ Path := "/x", URL := "u1" }, { Path := "/x", URL := "u2" }], none) ∧
    ∃ mapMap, (YAMLHandler sampleUnmarshal
          (bytesOf "- path: /x\n  url: u1\n- path: /x\n  url: u2\n") ⟨7⟩).handler
        = some (MapHandler mapMap ⟨7⟩) ∧
      mapMap "/x" = some "u2" ∧
      (MapHandler mapMap ⟨7⟩ ⟨1⟩ (requestFor "/x")).ops
        = [Op.Redirect ⟨1⟩ (requestFor "/x") "u2" 303,
           Op.ServeHTTP ⟨7⟩ ⟨1⟩ (requestFor "/x")] ∧
      Op.Redirect ⟨1⟩ (requestFor "/x") "u1" 303 ∉
        (MapHandler mapMap ⟨7⟩ ⟨1⟩ (requestFor "/x")).ops := by
  obtain ⟨mapMap, hh, _, hval, hserve⟩ := C5_last_write_wins sampleUnmarshal
    (bytesOf "- path: /x\n  url: u1\n- path: /x\n  url: u2\n") ⟨7⟩
    [{ Path := "/x", URL := "u1" }, { Path := "/x", URL := "u2" }]
    [{ Path := "/x", URL := "u1" }] [] { Path := "/x", URL := "u2" }
    (by decide) rfl (by simp)
  obtain ⟨hops, honly⟩ := hserve (by decide) ⟨1⟩ (requestFor "/x") rfl
  refine ⟨by decide, mapMap, hh, hval, hops, ?_⟩
  intro hmem
  exact absurd (honly "u1" 303 hmem) (by decide)

/-- C6: when `yaml.Unmarshal` returns an error `e`, `YAMLHandler` returns a
nil handler and `e` itself, and the only operation it has performed is the
call of `yaml.Unmarshal`: it has not called `ServeHTTP` on any handler, has
not allocated a map, has assigned no map entry and has not called
`MapHandler`.  This holds whatever `yaml.Unmarshal` left in the destination
slice. -/
theorem C6_unmarshal_error_returned
    (Unmarshal : Bytes → List pathMap → List pathMap × Option Error)
    (yml : Bytes) (F : Handler) (recs : List pathMap) (e : Error)
    (hfail : Unmarshal yml [] = (recs, some e)) :
    (YAMLHandler Unmarshal yml F).handler = none ∧
    (YAMLHandler Unmarshal yml F).err = some e ∧
    (YAMLHandler Unmarshal yml F).ops = [Op.Unmarshal yml] ∧
    (∀ g w r, Op.ServeHTTP g w r ∉ (YAMLHandler Unmarshal yml F).ops) ∧
    Op.MakeMap ∉ (YAMLHandler Unmarshal yml F).ops ∧
    (∀ k v, Op.MapAssign k v ∉ (YAMLHandler Unmarshal yml F).ops) ∧
    (∀ g, Op.MapHandler g ∉ (YAMLHandler Unmarshal yml F).ops) := by
  rw [YAMLHandler_of_error Unmarshal yml F recs e hfail]
  simp

/-- Instance of C6: a document the decoder rejects. -/
theorem C6_unmarshal_error_returned_witness :
    sampleUnmarshal (bytesOf "path: [") [] = ([], some { text := "yaml: unmarshal errors" }) ∧
    (YAMLHandler sampleUnmarshal (bytesOf "path: [") ⟨7⟩).handler = none ∧
    (YAMLHandler sampleUnmarshal (bytesOf "path: [") ⟨7⟩).err
      = some { text := "yaml: unmarshal errors" } ∧
    (YAMLHandler sampleUnmarshal (bytesOf "path: [") ⟨7⟩).ops
      = [Op.Unmarshal (bytesOf "path: [")] :=
  have h := C6_unmarshal_error_returned sampleUnmarshal (bytesOf "path: [") ⟨7⟩ []
    { text := "yaml: unmarshal errors" } (by decide)
  ⟨by decide, h.1, h.2.1, h.2.2.1⟩

end urlshortener

namespace urlshortener

/-- C7: the error `YAMLHandler` returns is the one `yaml.Unmarshal`
returned, so it is non-nil exactly when deserialisation failed; and whenever
the document deserialises without error to a record sequence, of any length
and content, `YAMLHandler` returns a non-nil handler and a nil error. -/
theorem C7_error_iff_unmarshal_fails
    (Unmarshal : Bytes → List pathMap → List pathMap × Option Error)
    (yml : Bytes) (F : Handler) :
    (YAMLHandler Unmarshal yml F).err = (Unmarshal yml []).2 ∧
    ((YAMLHandler Unmarshal yml F).err ≠ none ↔ (Unmarshal yml []).2 ≠ none) ∧
    ((YAMLHandler Unmarshal yml F).handler.isSome = true ↔ (Unmarshal yml []).2 = none) ∧
    (∀ recs, Unmarshal yml [] = (recs, none) →
      (YAMLHandler Unmarshal yml F).handler.isSome = true ∧
      (YAMLHandler Unmarshal yml F).err = none) := by
  rcases hU : Unmarshal yml [] with ⟨recs, _ | e⟩
  · rw [YAMLHandler_of_ok Unmarshal yml F recs hU]
    simp
  · rw [YAMLHandler_of_error Unmarshal yml F recs e hU]
    simp

/-- Instances of C7: the empty sequence, a sequence with a repeated path, a
record with an empty url and a record with an empty path are accepted; a
document the decoder rejects yields its error. -/
theorem C7_error_iff_unmarshal_fails_witness :
    ((YAMLHandler sampleUnmarshal (bytesOf "[]") ⟨7⟩).handler.isSome = true ∧
      (YAMLHandler sampleUnmarshal (bytesOf "[]") ⟨7⟩).err = none) ∧
    ((YAMLHandler sampleUnmarshal
        (bytesOf "- path: /x\n  url: u1\n- path: /x\n  url: u2\n") ⟨7⟩).handler.isSome = true ∧
      (YAMLHandler sampleUnmarshal
        (bytesOf "- path: /x\n  url: u1\n- path: /x\n  url: u2\n") ⟨7⟩).err = none) ∧
    ((YAMLHandler sampleUnmarshal
        (bytesOf "- path: /x\n  url: u1\n- path: /x\n") ⟨7⟩).handler.isSome = true ∧
      (YAMLHandler sampleUnmarshal
        (bytesOf "- path: /x\n  url: u1\n- path: /x\n") ⟨7⟩).err = none) ∧
    ((YAMLHandler sampleUnmarshal (bytesOf "- url: u\n") ⟨7⟩).handler.isSome = true ∧
      (YAMLHandler sampleUnmarshal (bytesOf "- url: u\n") ⟨7⟩).err = none) ∧
    (YAMLHandler sampleUnmarshal (bytesOf "path: [") ⟨7⟩).err
      = some { text := "yaml: unmarshal errors" } :=
  ⟨(C7_error_iff_unmarshal_fails sampleUnmarshal (bytesOf "[]") ⟨7⟩).2.2.2 [] (by decide),
    (C7_error_iff_unmarshal_fails sampleUnmarshal
      (bytesOf "- path: /x\n  url: u1\n- path: /x\n  url: u2\n") ⟨7⟩).2.2.2
      [{ Path := "/x", URL := "u1" }, { Path := "/x", URL := "u2" }] (by decide),
    (C7_error_iff_unmarshal_fails sampleUnmarshal
      (bytesOf "- path: /x\n  url: u1\n- path: /x\n") ⟨7⟩).2.2.2
      [{ Path := "/x", URL := "u1" }, { Path := "/x", URL := "" }] (by decide),
    (C7_error_iff_unmarshal_fails sampleUnmarshal (bytesOf "- url: u\n") ⟨7⟩).2.2.2
      [{ Path := "", URL := "u" }] (by decide),
    (C7_error_iff_unmarshal_fails sampleUnmarshal (bytesOf "path: [") ⟨7⟩).1.trans
      (by decide)⟩

/-- C10: when the document deserialises without error and the last record
with path `pm.Path` has the empty string as its URL, `YAMLHandler` returns a
nil error and a handler that, on a request whose escaped path is `pm.Path`,
performs the single operation `F.ServeHTTP(w, r)` and issues no redirect,
whatever URLs earlier records give for that path. -/
theorem C10_empty_url_cancels_redirect
    (Unmarshal : Bytes → List pathMap → List pathMap × Option Error)
    (yml : Bytes) (F : Handler) (recs pre post : List pathMap) (pm : pathMap)
    (hok : Unmarshal yml [] = (recs, none))
    (hsplit : recs = pre ++ pm :: post)
    (hlast : ∀ q ∈ post, q.Path ≠ pm.Path)
    (hempty : pm.URL = "") :
    (YAMLHandler Unmarshal yml F).err = none ∧
    ∃ h, (YAMLHandler Unmarshal yml F).handler = some h ∧
      ∀ w r, r.URL.EscapedPath = pm.Path →
        (h w r).ops = [Op.ServeHTTP F w r] ∧
        ∀ u code, Op.Redirect w r u code ∉ (h w r).ops := by
  rw [YAMLHandler_of_ok Unmarshal yml F recs hok]
  refine ⟨rfl, _, rfl, ?_⟩
  intro w r hr
  have hval : YAMLHandler.mapMap recs r.URL.EscapedPath = some "" := by
    rw [hr, hsplit, ← hempty]; exact mapMap_last pre post pm hlast
  have hops := MapHandler_ops_of_empty (YAMLHandler.mapMap recs) F w r (Or.inr hval)
  refine ⟨hops, ?_⟩
  intro u code hmem
  rw [hops] at hmem
  simp at hmem

/-- Instance of C10: the record `(/x, u1)` followed by a record with path
`/x` and no url.  The request for `/x` only reaches the fallback. -/
theorem C10_empty_url_cancels_redirect_witness :
    sampleUnmarshal (bytesOf "- path: /x\n  url: u1\n- path: /x\n") []
        = ([{ Path := "/x", URL := "u1" }, { Path := "/x", URL := "" }], none) ∧
    (YAMLHandler sampleUnmarshal (bytesOf "- path: /x\n  url: u1\n- path: /x\n") ⟨7⟩).err
        = none ∧
    ∃ h, (YAMLHandler sampleUnmarshal
          (bytesOf "- path: /x\n  url: u1\n- path: /x\n") ⟨7⟩).handler = some h ∧
      (h ⟨1⟩ (requestFor "/x")).ops = [Op.ServeHTTP ⟨7⟩ ⟨1⟩ (requestFor "/x")] ∧
      Op.Redirect ⟨1⟩ (requestFor "/x") "u1" 303 ∉ (h ⟨1⟩ (requestFor "/x")).ops := by
  obtain ⟨herr, h, hh, hserve⟩ := C10_empty_url_cancels_redirect sampleUnmarshal
    (bytesOf "- path: /x\n  url: u1\n- path: /x\n") ⟨7⟩
    [{ Path := "/x", URL := "u1" }, { Path := "/x", URL := "" }]
    [{ Path := "/x", URL := "u1" }] [] { Path := "/x", URL := "" }
    (by decide) rfl (by simp) rfl
  obtain ⟨hops, hnone⟩ := hserve ⟨1⟩ (requestFor "/x") rfl
  exact ⟨by decide, herr, h, hh, hops, hnone "u1" 303⟩

end urlshortener
